import Mathlib

/-!
Verification of the PHqrcode application (`src/app.py`): a Streamlit tool
that imports spreadsheet rows describing storage locations, persists them
to a Supabase table, generates QR-code images per row, embeds the images
into two generated spreadsheets, and offers substring search and a
statistics panel.

The embedding below translates the Python source shallowly:
* spreadsheet / table rows become association lists of column name to value;
* the Supabase backend (not part of this repository) is modelled from the
  spec as an in-memory list of rows with case-insensitive substring
  (`ilike '%x%'`) filtering, wrapped in `Except` to model backend errors;
* the filesystem effects (`tempfile.mkdtemp`, image/spreadsheet saves,
  cleanup) become explicit state passing over an `FS` record;
* the third-party QR encoder is modelled from the spec: the produced image
  carries its payload text (round-trip law), together with the concrete
  configuration the source passes to the library.
-/

set_option autoImplicit false

namespace PHqrcode

/-- A spreadsheet / table cell value: text or integer. -/
inductive Value where
  | str (s : String)
  | int (n : Int)
deriving DecidableEq, Repr

/-- Python `str(v)`, as used by f-string interpolation. -/
def Value.pyStr : Value → String
  | .str s => s
  | .int n => toString n

/-- Numeric view of a cell, used when pandas sums a numeric column.
(The claims only exercise integer-valued `nombre_planche` columns.) -/
def Value.toInt : Value → Int
  | .int n => n
  | .str _ => 0

/-- One row of a dataframe / of the `emplacements` table: an association
list from column name to value (a Python dict). -/
abbrev Row : Type := List (String × Value)

/-- Dict lookup of a column in a row (first binding wins). -/
def Row.get : Row → String → Option Value
  | [], _ => none
  | (k', v) :: rest, k => if k' = k then some v else Row.get rest k

/-- The stored `emplacements` table contents. -/
abbrev Store : Type := List Row

/-- `COLUMN_MAPPING` (src/app.py lines 99-107): display name → internal name. -/
def COLUMN_MAPPING : List (String × String) :=
  [("PH", "ph"),
   ("DTR", "dtr"),
   ("nombre de planche", "nombre_planche"),
   ("numero de planche", "numero_planche"),
   ("ligne", "ligne"),
   ("position", "position"),
   ("niveau", "niveau")]

/-- `required_columns = list(COLUMN_MAPPING.keys())` (line 238). -/
def required_columns : List String := COLUMN_MAPPING.map Prod.fst

/-- `df.rename(columns=COLUMN_MAPPING)` applied to one column name:
mapped names are replaced, all others kept. -/
def renameCol (c : String) : String := (COLUMN_MAPPING.lookup c).getD c

/-- The uploaded spreadsheet, as read by `pd.read_excel`: a header row of
column names and data rows of values aligned with the columns. -/
structure InFile where
  cols : List String
  rows : List (List Value)
deriving DecidableEq

/-- `missing_columns = [col for col in required_columns if col not in df.columns]`
(line 240). -/
def missingColumns (f : InFile) : List String :=
  required_columns.filter (fun c => !(f.cols.contains c))

/-- `row.to_dict()` of a renamed dataframe row (lines 246, 250): the row's
values keyed by the renamed column names. -/
def rowToDict (cols : List String) (r : List Value) : Row :=
  (cols.map renameCol).zip r

/-! ### Record Store queries (search / browse side)

The Supabase backend is not part of this repository; per the spec its
`ilike '%x%'` filter is case-insensitive substring containment. The glue
code in src (truthiness guards, exception-to-empty-dataframe) is
translated directly. -/

/-- Modelled from the spec: the remote backend's `ilike '%needle%'`
filter — case-insensitive substring containment. -/
def ilikeMatch (needle hay : String) : Bool :=
  decide (needle.toLower.data <:+: hay.toLower.data)

/-- One `ilike` filter applied to a possibly absent column value
(an SQL NULL never matches). -/
def ilikeField (v : Option Value) (needle : String) : Bool :=
  match v with
  | none => false
  | some v => ilikeMatch needle v.pyStr

/-- Python truthiness of the optional text filters of
`search_records(ph=None, dtr=None)`: `None` and `""` are falsy. -/
def truthy : Option String → Bool
  | none => false
  | some s => !s.isEmpty

/-- `search_records` (lines 193-206): builds a select over the
`emplacements` table, adds an `ilike` filter per truthy argument, executes;
any exception yields an empty dataframe. `table` is the backend response:
the stored rows, or an error. -/
def search_records (table : Except String Store) (ph dtr : Option String) : Store :=
  match table with
  | .error _ => []
  | .ok rows =>
    let r1 := if truthy ph then rows.filter (fun r => ilikeField (r.get "ph") (ph.getD "")) else rows
    let r2 := if truthy dtr then r1.filter (fun r => ilikeField (r.get "dtr") (dtr.getD "")) else r1
    r2

/-- `get_all_records` (lines 109-115): select * from `emplacements`;
any exception yields an empty dataframe. -/
def get_all_records (table : Except String Store) : Store :=
  match table with
  | .error _ => []
  | .ok rows => rows

/-- The four metrics of the statistics panel. -/
structure Stats where
  totalRecords : Nat
  uniquePH : Nat
  uniqueDTR : Nat
  totalPlanches : Int
deriving DecidableEq, Repr

/-- `'nombre_planche' in df.columns` for a dataframe built from dicts:
some row carries the key. -/
def hasCol (df : Store) (c : String) : Bool :=
  df.any (fun r => (r.get c).isSome)

/-- `get_statistics` (lines 117-132). `nunique` counts distinct non-null
values; `sum` adds the numeric column (0 when the column is absent). -/
def get_statistics (df : Store) : Stats :=
  if df.isEmpty then
    { totalRecords := 0, uniquePH := 0, uniqueDTR := 0, totalPlanches := 0 }
  else
    { totalRecords := df.length
      uniquePH := (df.filterMap (fun r => r.get "ph")).dedup.length
      uniqueDTR := (df.filterMap (fun r => r.get "dtr")).dedup.length
      totalPlanches :=
        if hasCol df "nombre_planche" then
          ((df.filterMap (fun r => r.get "nombre_planche")).map Value.toInt).sum
        else 0 }

/-! ### QR encoder

`create_qr_code` (lines 134-148) configures the third-party `qrcode`
library with error correction H, box size 10, border 4, `fit=True`, renders
the symbol and resizes it to 200x200 with the LANCZOS filter. The library
itself is not in this repository; per the spec the symbol encodes the
payload recoverably, so the image is modelled as carrying its payload text
alongside the configuration the source passes. -/

/-- The four QR error-correction levels. -/
inductive ECLevel where
  | L | M | Q | H
deriving DecidableEq, Repr

/-- Modelled from the spec: the approximate percentage of symbol damage
each error-correction level can recover (level H ≈ 30%). -/
def ECLevel.recoveryPercent : ECLevel → Nat
  | .L => 7
  | .M => 15
  | .Q => 25
  | .H => 30

/-- PIL resampling filters (the ones relevant to the source). -/
inductive Resample where
  | nearest | bilinear | bicubic | lanczos
deriving DecidableEq, Repr

/-- A smooth filter is any filter other than nearest-neighbor. -/
def Resample.isSmooth : Resample → Bool
  | .nearest => false
  | _ => true

/-- The rendered, resized QR image. `content` is the encoded payload
(modelled from the spec's round-trip law); `fitted` records that the
symbol version was auto-selected to fit the payload (`fit=True`). -/
structure QRImage where
  width : Nat
  height : Nat
  content : String
  ec : ECLevel
  resample : Resample
  fitted : Bool
deriving DecidableEq, Repr

/-- Lines 135-144: `QRCode(version=1, error_correction=ERROR_CORRECT_H,
box_size=10, border=4)`, `add_data`, `make(fit=True)`, `make_image`,
`resize((200, 200), LANCZOS)`. -/
def qrEncode (data : String) : QRImage :=
  { width := 200
    height := 200
    content := data
    ec := .H
    resample := .lanczos
    fitted := true }

/-- Modelled from the spec: decoding a QR image recovers its payload. -/
def qrDecode (img : QRImage) : String := img.content

/-- The full-payload f-string of line 261, built from the row's seven
internal fields. -/
def emplacement_qr_data (ph dtr nb np ligne pos niv : Value) : String :=
  "PH:" ++ ph.pyStr ++ "\nDTR:" ++ dtr.pyStr ++
  "\nnb_planche:" ++ nb.pyStr ++ "\nnum_planche:" ++ np.pyStr ++
  "\nligne:" ++ ligne.pyStr ++ "\nposition:" ++ pos.pyStr ++
  "\nniveau:" ++ niv.pyStr

/-- The board-payload f-string of line 270. -/
def planche_qr_data (ligne pos niv : Value) : String :=
  "ligne:" ++ ligne.pyStr ++ "\nposition:" ++ pos.pyStr ++
  "\nniveau:" ++ niv.pyStr

/-! ### Filesystem model

Paths are pairs `(directory id, filename)`. Directory id 0 is the working
directory (where `wb.save` writes the two output spreadsheets); every
`tempfile.mkdtemp` call returns a fresh id drawn from `nextDir`. -/

/-- Filesystem state: fresh-directory counter, existing temp directories,
existing files. -/
structure FS where
  nextDir : Nat
  dirs : List Nat
  files : List (Nat × String)
deriving DecidableEq, Repr

/-- Initial filesystem: no temp directories, no tracked files; id 0 is
reserved for the working directory. -/
def initFS : FS := { nextDir := 1, dirs := [], files := [] }

/-- `tempfile.mkdtemp()`: a fresh, empty temporary directory. -/
def mkdtemp (fs : FS) : Nat × FS :=
  (fs.nextDir, { nextDir := fs.nextDir + 1, dirs := fs.dirs ++ [fs.nextDir], files := fs.files })

/-- Lines 145-148 of `create_qr_code`: make a fresh temp directory of its
own, save the rendered image there, return the file path. (The bytes
written are `qrEncode data`.) -/
def create_qr_code (data filename : String) (fs : FS) : (Nat × String) × FS :=
  let _ := qrEncode data
  let d := (mkdtemp fs).1
  let fs1 := (mkdtemp fs).2
  ((d, filename), { fs1 with files := fs1.files ++ [(d, filename)] })

/-- Render a file path as the string stored in the data rows passed to
the spreadsheet assembler. -/
def pathStr (p : Nat × String) : String :=
  "/tmp/" ++ toString p.1 ++ "/" ++ p.2

/-! ### Spreadsheet assembler

`create_excel_with_qr_codes` (lines 150-191). A worksheet is modelled by
its written cells (openpyxl creates a cell for every `ws.cell(...)`
access, including the image-anchor cell of line 185, which is left without
a value), its embedded images (path and anchor, in insertion order), and
the column-width / row-height assignments as function updates. -/

/-- Point update of a dimension map (later assignments override earlier). -/
def setDim (f : Nat → Option Nat) (k v : Nat) : Nat → Option Nat :=
  fun x => if x = k then some v else f x

/-- The worksheet produced by the assembler. `cells` are
`(row, column, value)` with 1-based indices; `images` are
`(path, column, row)` anchors. -/
structure Worksheet where
  title : String
  cells : List (Nat × Nat × Option Value)
  images : List (Value × Nat × Nat)
  colWidths : Nat → Option Nat
  rowHeights : Nat → Option Nat

/-- The data-row loop of lines 175-187, starting at spreadsheet row
`rowIdx`: per row, one centered bordered text cell per value but the last,
the untouched image-anchor cell in column `qrCol`, row height 150, and the
image of the row's last entry anchored at `(qrCol, rowIdx)`. -/
def dataRows (qrCol : Nat) : List (List Value) → Nat →
    List (Nat × Nat × Option Value) × List (Value × Nat × Nat) × (Nat → Option Nat)
  | [], _ => ([], [], fun _ => none)
  | r :: rs, rowIdx =>
    let textCells := r.dropLast.enum.map (fun p => (rowIdx, p.1 + 1, some p.2))
    let qrPath := (r.getLast?).getD (Value.str "")
    let rest := dataRows qrCol rs (rowIdx + 1)
    (textCells ++ [(rowIdx, qrCol, (none : Option Value))] ++ rest.1,
     (qrPath, qrCol, rowIdx) :: rest.2.1,
     setDim rest.2.2 rowIdx 150)

/-- The two fixed header lists of line 164. -/
def excelHeaders (is_emplacement : Bool) : List String :=
  if is_emplacement then ["PH", "DTR", "QR Code"]
  else ["Ligne", "Position", "Niveau", "QR Code"]

/-- `create_excel_with_qr_codes(data, filename, is_emplacement)` without
the final `wb.save` (modelled separately by `saveWorkbook`): styled header
row with every column width 20, the data rows, then the last column width
set to 30. -/
def create_excel_with_qr_codes (data : List (List Value)) (is_emplacement : Bool) : Worksheet :=
  let headers := excelHeaders is_emplacement
  let headerCells := headers.enum.map (fun p => (1, p.1 + 1, some (Value.str p.2)))
  let headerWidths :=
    (List.range headers.length).foldl (fun w i => setDim w (i + 1) 20) (fun _ => none)
  let d := dataRows headers.length data 2
  { title := if is_emplacement then "Emplacements" else "Planches"
    cells := headerCells ++ d.1
    images := d.2.1
    colWidths := setDim headerWidths headers.length 30
    rowHeights := d.2.2 }

/-- `wb.save(filename)` (line 190): the single-sheet workbook is written
to `filename` in the working directory. -/
def saveWorkbook (ws : Worksheet) (filename : String) (fs : FS) : FS :=
  let _ := ws.title
  { fs with files := fs.files ++ [(0, filename)] }

/-! ### Import pipeline (tab1 handler, lines 235-310)

The handler body is one `try` block; any exception raised inside it jumps
to the `except` clause (line 309-310), which reports the error. The
possible exception sites are modelled by a `FailAt` oracle: `none` means
no operation raises. -/

/-- Where an exception is raised inside the try block, if anywhere:
during the column rename (normalize), during the insert of row `k`
(persist loop, lines 249-251), at the start of row `k`'s QR generation
(lines 260-278), inside either `create_excel_with_qr_codes` call
(lines 280-281), or while delivering the downloads (lines 283-300). -/
inductive FailAt where
  | normalize
  | insert (k : Nat)
  | gen (k : Nat)
  | assembleEmp
  | assemblePl
  | deliver
deriving DecidableEq, Repr

/-- What the handler reports to the user. -/
inductive Report where
  | validationError (missing : List String)
  | errorReported
  | success
deriving DecidableEq, Repr

/-- Outcome of one run of the tab1 handler. -/
structure ImportResult where
  store : Store
  fs : FS
  report : Report
  delivered : Bool
deriving DecidableEq, Repr

/-- Field access `row[k]` on a dict row (the pipeline only reads keys the
rename guarantees are present). -/
def getV (r : Row) (k : String) : Value := (r.get k).getD (Value.str "")

/-- The generation loop of lines 260-278 over the renamed dict rows,
carrying the 0-based `iterrows` index: per row, encode the full payload to
`emplacement_{index}.png`, collect `[ph, dtr, path]`, encode the board
payload to `planche_{index}.png`, collect `[ligne, position, niveau,
path]`. `stop = some k` makes the generation of row `k` raise; the Bool
result is false when an exception was raised. -/
def genLoop : List Row → Nat → FS → Option Nat →
    FS × List (List Value) × List (List Value) × Bool
  | [], _, fs, _ => (fs, [], [], true)
  | r :: rs, i, fs, stop =>
    if stop = some i then (fs, [], [], false)
    else
      let empData := emplacement_qr_data (getV r "ph") (getV r "dtr")
        (getV r "nombre_planche") (getV r "numero_planche")
        (getV r "ligne") (getV r "position") (getV r "niveau")
      let c1 := create_qr_code empData ("emplacement_" ++ toString i ++ ".png") fs
      let plData := planche_qr_data (getV r "ligne") (getV r "position") (getV r "niveau")
      let c2 := create_qr_code plData ("planche_" ++ toString i ++ ".png") c1.2
      let rest := genLoop rs (i + 1) c2.2 stop
      (rest.1,
       [getV r "ph", getV r "dtr", Value.str (pathStr c1.1)] :: rest.2.1,
       [getV r "ligne", getV r "position", getV r "niveau", Value.str (pathStr c2.1)] :: rest.2.2.1,
       rest.2.2.2)

/-- The cleanup of lines 302-307: delete every file inside the handler's
`temp_dir`, remove that directory, delete the two saved spreadsheets. -/
def cleanupRun (fs : FS) (tempDir : Nat) : FS :=
  let files1 := fs.files.filter (fun p => p.1 ≠ tempDir)
  let files2 := (files1.erase (0, "feuille_emplacement.xlsx")).erase (0, "feuille_planche.xlsx")
  { fs with dirs := fs.dirs.erase tempDir, files := files2 }

/-- The tab1 import handler (lines 235-310) on an uploaded file, a store
state, a filesystem state and a failure oracle. Missing required columns
abort before any insert; otherwise the rows are renamed and inserted one
by one, both QR images are generated per row, both spreadsheets are
assembled and saved, the downloads are offered, and the success path runs
the cleanup. Any raised exception ends the run with `errorReported`. -/
def runImport (f : InFile) (store : Store) (fs : FS) (failAt : Option FailAt) : ImportResult :=
  let missing := missingColumns f
  if missing ≠ [] then
    { store := store, fs := fs, report := .validationError missing, delivered := false }
  else if failAt = some .normalize then
    { store := store, fs := fs, report := .errorReported, delivered := false }
  else
    let dicts := f.rows.map (fun r => rowToDict f.cols r)
    let stopIns : Option Nat := match failAt with | some (.insert k) => some k | _ => none
    let persisted := match stopIns with
      | some k => if k < dicts.length then dicts.take k else dicts
      | none => dicts
    let store1 := store ++ persisted
    let insFail := match stopIns with | some k => decide (k < dicts.length) | none => false
    if insFail then
      { store := store1, fs := fs, report := .errorReported, delivered := false }
    else
      let tempDir := (mkdtemp fs).1
      let stopGen : Option Nat := match failAt with | some (.gen k) => some k | _ => none
      let g := genLoop dicts 0 (mkdtemp fs).2 stopGen
      if !g.2.2.2 then
        { store := store1, fs := g.1, report := .errorReported, delivered := false }
      else if failAt = some .assembleEmp then
        { store := store1, fs := g.1, report := .errorReported, delivered := false }
      else
        let fs3 := saveWorkbook (create_excel_with_qr_codes g.2.1 true)
          "feuille_emplacement.xlsx" g.1
        if failAt = some .assemblePl then
          { store := store1, fs := fs3, report := .errorReported, delivered := false }
        else
          let fs4 := saveWorkbook (create_excel_with_qr_codes g.2.2.1 false)
            "feuille_planche.xlsx" fs3
          if failAt = some .deliver then
            { store := store1, fs := fs4, report := .errorReported, delivered := false }
          else
            { store := store1, fs := cleanupRun fs4 tempDir, report := .success, delivered := true }

/-- Whether the failure oracle actually names an operation the run
executes: the `k`-th insert or the `k`-th row generation only exists for
`k` below the row count; every other site is always reached once
validation passes. -/
def FailAt.hits (e : FailAt) (n : Nat) : Bool :=
  match e with
  | .insert k => decide (k < n)
  | .gen k => decide (k < n)
  | _ => true

/-- How many rows the persist loop has inserted when the exception of `e`
is raised, for an `n`-row file: none before normalization fails, `k` when
the `k`-th insert fails, all `n` at any later site. -/
def FailAt.persistedCount (e : FailAt) (n : Nat) : Nat :=
  match e with
  | .normalize => 0
  | .insert k => k
  | _ => n

/-! ### Concrete example inputs (used by witnesses and counterexamples) -/

/-- Example input file: the seven required columns plus one extra column,
with one data row. -/
def exFile : InFile :=
  { cols := ["PH", "DTR", "nombre de planche", "numero de planche",
             "ligne", "position", "niveau", "commentaire"]
    rows := [[.str "P1", .str "D1", .int 3, .int 1, .str "L1", .str "Pos1",
              .str "N1", .str "extra"]] }

/-- Example input file missing the `DTR` column. -/
def badFile : InFile :=
  { cols := ["PH", "nombre de planche", "numero de planche",
             "ligne", "position", "niveau"]
    rows := [[.str "P1", .int 3, .int 1, .str "L1", .str "Pos1", .str "N1"]] }

/-- Example stored rows (two records sharing the `ph` value). -/
def exRows : Store :=
  [[("ph", Value.str "Alpha"), ("dtr", Value.str "D1"), ("nombre_planche", Value.int 3)],
   [("ph", Value.str "Alpha"), ("dtr", Value.str "D2"), ("nombre_planche", Value.int 4)]]

/-! ### Helper lemmas -/

/-- With no failure oracle the generation loop raises nothing. -/
lemma genLoop_ok_none : ∀ (rows : List Row) (i : Nat) (fs : FS),
    (genLoop rows i fs none).2.2.2 = true := by
  intro rows
  induction rows with
  | nil => intro i fs; rfl
  | cons r rs ih => intro i fs; simp [genLoop, ih]

/-- A failure oracle pointing inside the loop makes it raise. -/
lemma genLoop_ok_stop : ∀ (rows : List Row) (i : Nat) (fs : FS) (k : Nat),
    i ≤ k → k < i + rows.length → (genLoop rows i fs (some k)).2.2.2 = false := by
  intro rows
  induction rows with
  | nil => intro i fs k h1 h2; simp at h2; omega
  | cons r rs ih =>
    intro i fs k h1 h2
    by_cases hk : k = i
    · simp [genLoop, hk]
    · have hki : ¬ (some k = some (i : Nat)) := by simp [hk]
      simp only [genLoop, if_neg hki]
      exact ih _ _ _ (by omega) (by simp at h2; omega)

/-- `ilikeField` is case-insensitive substring containment on a present
column value; an absent value never matches. -/
lemma ilikeField_eq_true (v : Option Value) (needle : String) :
    ilikeField v needle = true ↔
      ∃ s, v = some s ∧ needle.toLower.data <:+: s.pyStr.toLower.data := by
  cases v with
  | none => simp [ilikeField]
  | some s => simp [ilikeField, ilikeMatch]

/-- A present, nonempty filter string is truthy. -/
lemma truthy_some (s : String) (h : s ≠ "") : truthy (some s) = true := by
  simp only [truthy]
  cases hx : s.isEmpty
  · rfl
  · exact absurd ((String.isEmpty_iff s).mp hx) h

/-! ### Claim theorems -/

/-- C2. An uploaded file missing at least one required display-name column
is rejected with a validation error before any persistence step: the store
and the filesystem are unchanged and nothing is delivered, whatever the
failure oracle says about later steps. -/
theorem c2_missing_columns_rejected (f : InFile) (store : Store) (fs : FS)
    (failAt : Option FailAt) (h : missingColumns f ≠ []) :
    runImport f store fs failAt =
      { store := store, fs := fs,
        report := .validationError (missingColumns f), delivered := false } := by
  simp only [runImport]
  rw [if_pos h]

/-- Witness for C2: a file missing the `DTR` column is rejected and the
store stays empty. -/
theorem c2_missing_columns_rejected_witness :
    runImport badFile [] initFS none =
      { store := [], fs := initFS,
        report := .validationError (missingColumns badFile), delivered := false } :=
  c2_missing_columns_rejected badFile [] initFS none (by decide)

/-- C3 (code bug). On the success path of a one-row import the cleanup
does NOT remove the generated QR images: `create_qr_code` writes each
image into its own fresh `mkdtemp` directory, while the handler's cleanup
only empties the separate (empty) `temp_dir` it created itself, then
deletes the two spreadsheets. Both QR image files and both per-image temp
directories survive the run. -/
theorem c3_cleanup_leaves_qr_images :
    (runImport exFile [] initFS none).report = .success
  ∧ (runImport exFile [] initFS none).fs.files =
      [(2, "emplacement_0.png"), (3, "planche_0.png")]
  ∧ (runImport exFile [] initFS none).fs.dirs = [2, 3]
  ∧ (runImport exFile [] initFS none).fs.files ≠ [] := by
  refine ⟨by decide, by decide, by decide, by decide⟩

/-- C9. The search handler's text fields default to `""`, and
`search_records` treats an empty-string filter exactly like an absent
(`None`) filter: no constraint is applied and every stored record is
returned. -/
theorem c9_empty_filter_is_no_filter (rows : Store) :
    search_records (.ok rows) (some "") (some "") = rows
  ∧ search_records (.ok rows) (some "") (some "") = search_records (.ok rows) none none
  ∧ search_records (.ok rows) none none = rows := by
  refine ⟨rfl, rfl, rfl⟩

/-- C10. On a backend error both read paths swallow the exception and
return an empty record set, so the statistics panel reports the same
all-zero metrics for a store failure as for an empty database. -/
theorem c10_backend_error_looks_empty (e : String) (ph dtr : Option String) :
    get_all_records (.error e) = []
  ∧ search_records (.error e) ph dtr = []
  ∧ get_statistics (get_all_records (.error e)) =
      { totalRecords := 0, uniquePH := 0, uniqueDTR := 0, totalPlanches := 0 }
  ∧ get_statistics (get_all_records (.error e)) = get_statistics (get_all_records (.ok [])) := by
  refine ⟨rfl, rfl, rfl, rfl⟩

/-- C4. With a nonempty `ph` filter and no `dtr` filter, `search_records`
returns exactly the stored records whose `ph` field contains the filter
text as a case-insensitive substring; with no filters it returns all
stored records; with both filters given, the two conditions are ANDed. -/
theorem c4_search_filters (rows : Store) (ph dtr : String) (hph : ph ≠ "") :
    (∀ r, r ∈ search_records (.ok rows) (some ph) none ↔
        r ∈ rows ∧ ∃ v, r.get "ph" = some v ∧
          ph.toLower.data <:+: v.pyStr.toLower.data)
  ∧ search_records (.ok rows) none none = rows
  ∧ (dtr ≠ "" → ∀ r, r ∈ search_records (.ok rows) (some ph) (some dtr) ↔
        r ∈ rows
      ∧ (∃ v, r.get "ph" = some v ∧ ph.toLower.data <:+: v.pyStr.toLower.data)
      ∧ (∃ v, r.get "dtr" = some v ∧ dtr.toLower.data <:+: v.pyStr.toLower.data)) := by
  have ht : truthy (some ph) = true := truthy_some ph hph
  have hn : truthy (none : Option String) = false := rfl
  refine ⟨?_, rfl, ?_⟩
  · intro r
    simp [search_records, ht, hn, List.mem_filter, ilikeField_eq_true]
  · intro hdtr r
    have ht2 : truthy (some dtr) = true := truthy_some dtr hdtr
    simp only [search_records, ht, ht2, if_true, List.mem_filter, ilikeField_eq_true,
      Option.getD_some]
    tauto

/-- Witness for C4: with no filters the whole example store is returned. -/
theorem c4_search_filters_witness :
    search_records (.ok exRows) none none = exRows :=
  (c4_search_filters exRows "A" "D" (by decide)).2.1

/-- When every row carries an integer `nombre_planche`, summing the
extracted column equals summing the per-row values. -/
lemma sum_planches (df : Store)
    (hnb : ∀ r ∈ df, ∃ n : Int, r.get "nombre_planche" = some (.int n)) :
    ((df.filterMap (fun r => r.get "nombre_planche")).map Value.toInt).sum
      = (df.map (fun r => ((r.get "nombre_planche").getD (.int 0)).toInt)).sum := by
  induction df with
  | nil => rfl
  | cons r rs ih =>
    obtain ⟨n, hn⟩ := hnb r (List.mem_cons_self r rs)
    have ih' := ih (fun r' hr' => hnb r' (List.mem_cons_of_mem r hr'))
    simp [hn, ih', Value.toInt]

/-- C8. `get_statistics` returns all-zero metrics on an empty record set;
on a nonempty set it reports the total row count, the number of distinct
`ph` values, the number of distinct `dtr` values, and the sum of the
integer `nombre_planche` column (0 when the column is absent); a record
set with a duplicated `ph` value has strictly fewer distinct `ph` values
than records. -/
theorem c8_statistics (df : Store) :
    get_statistics [] = { totalRecords := 0, uniquePH := 0, uniqueDTR := 0, totalPlanches := 0 }
  ∧ (df ≠ [] →
        (get_statistics df).totalRecords = df.length
      ∧ (get_statistics df).uniquePH = (df.filterMap (fun r => r.get "ph")).toFinset.card
      ∧ (get_statistics df).uniqueDTR = (df.filterMap (fun r => r.get "dtr")).toFinset.card)
  ∧ ((∀ r ∈ df, ∃ n : Int, r.get "nombre_planche" = some (.int n)) →
        (get_statistics df).totalPlanches =
          (df.map (fun r => ((r.get "nombre_planche").getD (.int 0)).toInt)).sum)
  ∧ ((∀ r ∈ df, r.get "nombre_planche" = none) → (get_statistics df).totalPlanches = 0)
  ∧ (¬ (df.filterMap (fun r => r.get "ph")).Nodup →
        (get_statistics df).uniquePH < (get_statistics df).totalRecords) := by
  refine ⟨rfl, ?_, ?_, ?_, ?_⟩
  · intro hne
    have hE : df.isEmpty = false := by
      cases df with
      | nil => exact absurd rfl hne
      | cons a l => rfl
    refine ⟨?_, ?_, ?_⟩ <;>
      simp [get_statistics, hE, List.card_toFinset]
  · intro hnb
    cases hdf : df with
    | nil => rfl
    | cons a l =>
      have hE : df.isEmpty = false := by rw [hdf]; rfl
      have hcol : hasCol df "nombre_planche" = true := by
        obtain ⟨n, hn⟩ := hnb a (by rw [hdf]; exact List.mem_cons_self a l)
        apply List.any_eq_true.mpr
        exact ⟨a, by rw [hdf]; exact List.mem_cons_self a l, by simp [hn]⟩
      rw [← hdf]
      simp only [get_statistics, hE, Bool.false_eq_true, if_false, hcol, if_true]
      exact sum_planches df hnb
  · intro habs
    cases hdf : df with
    | nil => rfl
    | cons a l =>
      have hE : df.isEmpty = false := by rw [hdf]; rfl
      have hcol : hasCol df "nombre_planche" = false := by
        apply List.any_eq_false.mpr
        intro r hr
        simp [habs r hr]
      rw [← hdf]
      simp [get_statistics, hE, hcol]
  · intro hdup
    have hne : df ≠ [] := by
      intro h0
      exact hdup (by rw [h0]; exact List.nodup_nil)
    have hE : df.isEmpty = false := by
      cases df with
      | nil => exact absurd rfl hne
      | cons a l => rfl
    have h1 : (df.filterMap (fun r => r.get "ph")).dedup.length
        < (df.filterMap (fun r => r.get "ph")).length := by
      have hle := (List.dedup_sublist (df.filterMap (fun r => r.get "ph"))).length_le
      rcases Nat.lt_or_ge (df.filterMap (fun r => r.get "ph")).dedup.length
          (df.filterMap (fun r => r.get "ph")).length with h | h
      · exact h
      · exfalso
        have heq := (List.dedup_sublist (df.filterMap (fun r => r.get "ph"))).eq_of_length
          (Nat.le_antisymm hle h)
        exact hdup (heq ▸ List.nodup_dedup _)
    have h2 := List.length_filterMap_le (fun r => r.get "ph") df
    simp only [get_statistics, hE, Bool.false_eq_true, if_false]
    omega

/-- Witness for C8: the example store has two records sharing `ph`, so the
distinct-`ph` count is strictly below the record count. -/
theorem c8_statistics_witness :
    (get_statistics exRows).uniquePH < (get_statistics exRows).totalRecords :=
  (c8_statistics exRows).2.2.2.2 (by decide)

/-- Dict lookup over a zip of distinct keys returns the value aligned
with the key's position. -/
lemma rowGet_zip (ks : List String) : ∀ (vs : List Value), ks.Nodup →
    ∀ (i : Nat) (hi : i < ks.length) (hv : i < vs.length),
      Row.get (ks.zip vs) (ks.get ⟨i, hi⟩) = some (vs.get ⟨i, hv⟩) := by
  induction ks with
  | nil => intro vs _ i hi; simp at hi
  | cons k ks ih =>
    intro vs hnd i hi hv
    cases vs with
    | nil => simp at hv
    | cons v vs =>
      cases i with
      | zero => simp [Row.get]
      | succ n =>
        have hk : k ≠ ks.get ⟨n, by simpa using hi⟩ := by
          intro hkk
          exact (List.nodup_cons.mp hnd).1 (hkk ▸ List.get_mem ks n (by simpa using hi))
        simp only [List.zip_cons_cons, List.get_cons_succ, Row.get, if_neg hk]
        exact ih vs (List.nodup_cons.mp hnd).2 n (by simpa using hi) (by simpa using hv)

/-- C1. A file containing all seven required display-name columns (in any
order, extra columns allowed) imports successfully: the store gains
exactly one new record per input row — the row's values keyed by the
renamed column names — and, when the renamed column names are distinct,
each record's field under a renamed name equals the source row's value in
that column. -/
theorem c1_import_success (f : InFile) (store : Store) (fs : FS)
    (h : missingColumns f = []) :
    (runImport f store fs none).report = .success
  ∧ (runImport f store fs none).delivered = true
  ∧ (runImport f store fs none).store = store ++ f.rows.map (fun r => rowToDict f.cols r)
  ∧ (runImport f store fs none).store.length = store.length + f.rows.length
  ∧ ((f.cols.map renameCol).Nodup →
      ∀ r ∈ f.rows, ∀ (hlen : r.length = f.cols.length),
      ∀ (i : Nat) (hi : i < f.cols.length),
        (rowToDict f.cols r).get (renameCol (f.cols.get ⟨i, hi⟩)) =
          some (r.get ⟨i, by omega⟩)) := by
  refine ⟨?_, ?_, ?_, ?_, ?_⟩
  · simp [runImport, h, genLoop_ok_none]
  · simp [runImport, h, genLoop_ok_none]
  · simp [runImport, h, genLoop_ok_none]
  · simp [runImport, h, genLoop_ok_none]
  · intro hnd r _ hlen i hi
    have hmap : renameCol (f.cols.get ⟨i, hi⟩) =
        (f.cols.map renameCol).get ⟨i, by simpa using hi⟩ := by
      simp
    rw [rowToDict, hmap]
    exact rowGet_zip (f.cols.map renameCol) r hnd i (by simpa using hi) (by omega)

/-- Witness for C1: importing the one-row example file (seven required
columns plus an extra one) succeeds. -/
theorem c1_import_success_witness :
    (runImport exFile [] initFS none).delivered = true :=
  (c1_import_success exFile [] initFS (by decide)).2.1

/-- C6. Once validation has passed, an exception raised at any reachable
pipeline site — normalize, the `k`-th insert, the `k`-th row's QR
generation, either spreadsheet assembly, or delivery — reports the error
and aborts the remaining steps (nothing is delivered), while the rows
already persisted stay in the store: the final store is the initial store
extended by exactly the renamed rows inserted before the exception, with
no rollback. -/
theorem c6_exception_no_rollback (f : InFile) (store : Store) (fs : FS) (e : FailAt)
    (h : missingColumns f = []) (hh : e.hits f.rows.length = true) :
    (runImport f store fs (some e)).report = .errorReported
  ∧ (runImport f store fs (some e)).delivered = false
  ∧ (runImport f store fs (some e)).store =
      store ++ (f.rows.map (fun r => rowToDict f.cols r)).take (e.persistedCount f.rows.length)
  ∧ store <+: (runImport f store fs (some e)).store := by
  have hlen : (f.rows.map (fun r => rowToDict f.cols r)).length = f.rows.length :=
    List.length_map _ _
  cases e with
  | normalize =>
    refine ⟨?_, ?_, ?_, ?_⟩ <;>
      simp [runImport, h, FailAt.persistedCount]
  | insert k =>
    have hk : k < f.rows.length := by simpa [FailAt.hits] using hh
    refine ⟨?_, ?_, ?_, ?_⟩ <;>
      simp [runImport, h, FailAt.persistedCount, hlen, hk, List.prefix_append]
  | gen k =>
    have hk : k < f.rows.length := by simpa [FailAt.hits] using hh
    have hgen := genLoop_ok_stop (f.rows.map (fun r => rowToDict f.cols r)) 0
      (mkdtemp fs).2 k (Nat.zero_le k) (by omega)
    refine ⟨?_, ?_, ?_, ?_⟩ <;>
      simp [runImport, h, FailAt.persistedCount, hgen, hlen, List.take_length,
        List.prefix_append]
  | assembleEmp =>
    refine ⟨?_, ?_, ?_, ?_⟩ <;>
      simp [runImport, h, FailAt.persistedCount, genLoop_ok_none, hlen, List.take_length,
        List.prefix_append]
  | assemblePl =>
    refine ⟨?_, ?_, ?_, ?_⟩ <;>
      simp [runImport, h, FailAt.persistedCount, genLoop_ok_none, hlen, List.take_length,
        List.prefix_append]
  | deliver =>
    refine ⟨?_, ?_, ?_, ?_⟩ <;>
      simp [runImport, h, FailAt.persistedCount, genLoop_ok_none, hlen, List.take_length,
        List.prefix_append]

/-- Witness for C6: failing the QR generation of row 0 of the example file
still reports an error while the row inserted by the persist loop stays
stored. -/
theorem c6_exception_no_rollback_witness :
    (runImport exFile [] initFS (some (.gen 0))).report = .errorReported :=
  (c6_exception_no_rollback exFile [] initFS (.gen 0) (by decide) (by decide)).1

/-- The full payload and the board payload of a record are always
distinct strings (they start with different literals). -/
lemma payloads_distinct (ph dtr nb np ligne pos niv : Value) :
    emplacement_qr_data ph dtr nb np ligne pos niv ≠ planche_qr_data ligne pos niv := by
  intro hEq
  have hc := congrArg String.data hEq
  simp [emplacement_qr_data, planche_qr_data, String.data_append] at hc

/-- C7. For every record, encoding the full payload and encoding the
board payload produce distinct, non-empty 200x200 images, generated with
error correction tolerant of roughly 30% damage, a symbol version
auto-selected to fit the payload, and a smooth (non-nearest-neighbor)
resampling filter; decoding either image recovers exactly the original
payload text. -/
theorem c7_qr_encode_roundtrip (ph dtr nb np ligne pos niv : Value) :
    qrEncode (emplacement_qr_data ph dtr nb np ligne pos niv) ≠
      qrEncode (planche_qr_data ligne pos niv)
  ∧ (qrEncode (emplacement_qr_data ph dtr nb np ligne pos niv)).width = 200
  ∧ (qrEncode (emplacement_qr_data ph dtr nb np ligne pos niv)).height = 200
  ∧ (qrEncode (planche_qr_data ligne pos niv)).width = 200
  ∧ (qrEncode (planche_qr_data ligne pos niv)).height = 200
  ∧ 0 < (qrEncode (emplacement_qr_data ph dtr nb np ligne pos niv)).width *
        (qrEncode (emplacement_qr_data ph dtr nb np ligne pos niv)).height
  ∧ 0 < (qrEncode (planche_qr_data ligne pos niv)).width *
        (qrEncode (planche_qr_data ligne pos niv)).height
  ∧ (qrEncode (emplacement_qr_data ph dtr nb np ligne pos niv)).ec.recoveryPercent = 30
  ∧ (qrEncode (planche_qr_data ligne pos niv)).ec.recoveryPercent = 30
  ∧ (qrEncode (emplacement_qr_data ph dtr nb np ligne pos niv)).fitted = true
  ∧ (qrEncode (planche_qr_data ligne pos niv)).fitted = true
  ∧ (qrEncode (emplacement_qr_data ph dtr nb np ligne pos niv)).resample.isSmooth = true
  ∧ (qrEncode (emplacement_qr_data ph dtr nb np ligne pos niv)).resample ≠ Resample.nearest
  ∧ (qrEncode (planche_qr_data ligne pos niv)).resample.isSmooth = true
  ∧ (qrEncode (planche_qr_data ligne pos niv)).resample ≠ Resample.nearest
  ∧ qrDecode (qrEncode (emplacement_qr_data ph dtr nb np ligne pos niv)) =
      emplacement_qr_data ph dtr nb np ligne pos niv
  ∧ qrDecode (qrEncode (planche_qr_data ligne pos niv)) = planche_qr_data ligne pos niv := by
  refine ⟨?_, rfl, rfl, rfl, rfl, by show (0 : Nat) < 200 * 200; norm_num,
    by show (0 : Nat) < 200 * 200; norm_num, rfl, rfl, rfl,
    rfl, rfl, by simp [qrEncode], rfl, by simp [qrEncode], rfl, rfl⟩
  intro hEq
  exact payloads_distinct ph dtr nb np ligne pos niv (congrArg QRImage.content hEq)

/-- The row indices written by the data-row loop are exactly
`i, …, i + N - 1`. -/
lemma dataRows_rows (q : Nat) (data : List (List Value)) :
    ∀ (i x : Nat),
      (x ∈ ((dataRows q data i).1.map (fun c => c.1)) ↔ i ≤ x ∧ x < i + data.length) := by
  induction data with
  | nil => intro i x; simp [dataRows]
  | cons r rs ih =>
    intro i x
    simp [dataRows, List.mem_map, ih]
    constructor
    · rintro (⟨_, rfl⟩ | rfl | ⟨h1, h2⟩) <;> omega
    · intro h
      by_cases hx : x = i
      · right; left; omega
      · right; right; omega

/-- The images of the data-row loop are anchored at `(q, i + k)` for
`k`-th input row, in source order. -/
lemma dataRows_images (q : Nat) (data : List (List Value)) :
    ∀ (i : Nat), (dataRows q data i).2.1.map (fun p => (p.2.1, p.2.2)) =
      (List.range data.length).map (fun k => (q, i + k)) := by
  induction data with
  | nil => intro i; simp [dataRows]
  | cons r rs ih =>
    intro i
    simp [dataRows, ih, List.range_succ_eq_map, List.map_map]
    intro a _
    omega

/-- Every data row gets height 150. -/
lemma dataRows_heights (q : Nat) (data : List (List Value)) :
    ∀ (i x : Nat), i ≤ x → x < i + data.length → (dataRows q data i).2.2 x = some 150 := by
  induction data with
  | nil => intro i x h1 h2; simp at h2; omega
  | cons r rs ih =>
    intro i x h1 h2
    by_cases hx : x = i
    · simp [dataRows, setDim, hx]
    · simp [dataRows, setDim, hx]
      exact ih (i+1) x (by omega) (by simp at h2; omega)

/-- The header loop sets columns `1, …, n` to width 20 and touches no
other column. -/
lemma foldl_setDim_range (n : Nat) (w : Nat → Option Nat) (c : Nat) :
    ((List.range n).foldl (fun w i => setDim w (i + 1) 20) w) c =
      if 1 ≤ c ∧ c ≤ n then some 20 else w c := by
  induction n generalizing w with
  | zero =>
    simp only [List.range_zero, List.foldl_nil]
    rw [if_neg (by omega)]
  | succ m ih =>
    rw [List.range_succ, List.foldl_append]
    simp only [List.foldl_cons, List.foldl_nil, setDim]
    rw [ih w]
    split_ifs <;> first | rfl | omega

/-- The header cells all sit in spreadsheet row 1. -/
lemma headerCells_rows (hs : List String) (x : Nat) (hne : hs ≠ []) :
    x ∈ ((hs.enum.map (fun p => ((1 : Nat), p.1 + 1, some (Value.str p.2)))).map
        (fun c => c.1)) ↔ x = 1 := by
  cases hs with
  | nil => exact absurd rfl hne
  | cons h t =>
    constructor
    · intro hmem
      rcases List.mem_map.mp hmem with ⟨cell, hcell, rfl⟩
      rcases List.mem_map.mp hcell with ⟨p, _, rfl⟩
      rfl
    · rintro rfl
      exact List.mem_map.mpr ⟨(1, 1, some (Value.str h)),
        List.mem_map.mpr ⟨(0, h), by simp [List.enum_cons], rfl⟩, rfl⟩

/-- The two header lists are nonempty. -/
lemma excelHeaders_ne_nil (b : Bool) : excelHeaders b ≠ [] := by
  cases b <;> simp [excelHeaders]

/-- C5. On `N` input rows the assembler produces a worksheet whose written
cells span exactly the `N + 1` spreadsheet rows `1, …, N + 1`, with exactly
`N` embedded images — the `k`-th anchored in the last (image) column of
data row `k + 2`, in source order — every non-image column 20 units wide,
the image column 30 units wide, and every data row 150 units high. -/
theorem c5_assemble_shape (data : List (List Value)) (b : Bool)
    (hrows : ∀ r ∈ data, r.length = (excelHeaders b).length) :
    ((create_excel_with_qr_codes data b).cells.map (fun c => c.1)).toFinset =
      Finset.Icc 1 (data.length + 1)
  ∧ ((create_excel_with_qr_codes data b).cells.map (fun c => c.1)).toFinset.card =
      data.length + 1
  ∧ (create_excel_with_qr_codes data b).images.length = data.length
  ∧ (create_excel_with_qr_codes data b).images.map (fun p => (p.2.1, p.2.2)) =
      (List.range data.length).map (fun k => ((excelHeaders b).length, k + 2))
  ∧ (∀ c, 1 ≤ c → c < (excelHeaders b).length →
      (create_excel_with_qr_codes data b).colWidths c = some 20)
  ∧ (create_excel_with_qr_codes data b).colWidths (excelHeaders b).length = some 30
  ∧ (∀ k, k < data.length →
      (create_excel_with_qr_codes data b).rowHeights (k + 2) = some 150) := by
  have himg : (create_excel_with_qr_codes data b).images.map (fun p => (p.2.1, p.2.2)) =
      (List.range data.length).map (fun k => ((excelHeaders b).length, k + 2)) := by
    show ((dataRows (excelHeaders b).length data 2).2.1.map (fun p => (p.2.1, p.2.2))) = _
    rw [dataRows_images]
    apply List.map_congr_left
    intro k _
    simp
    omega
  have hset : ((create_excel_with_qr_codes data b).cells.map (fun c => c.1)).toFinset =
      Finset.Icc 1 (data.length + 1) := by
    apply Finset.ext
    intro x
    show x ∈ ((_ ++ (dataRows (excelHeaders b).length data 2).1).map (fun c => c.1)).toFinset ↔ _
    rw [List.mem_toFinset, List.map_append, List.mem_append,
      headerCells_rows (excelHeaders b) x (excelHeaders_ne_nil b),
      dataRows_rows, Finset.mem_Icc]
    omega
  refine ⟨hset, ?_, ?_, himg, ?_, ?_, ?_⟩
  · rw [hset, Nat.card_Icc]
    omega
  · have := congrArg List.length himg
    simpa using this
  · intro c h1 h2
    show setDim ((List.range (excelHeaders b).length).foldl
        (fun w i => setDim w (i + 1) 20) (fun _ => none)) (excelHeaders b).length 30 c = some 20
    rw [setDim, if_neg (by omega), foldl_setDim_range, if_pos (by omega)]
  · show setDim _ (excelHeaders b).length 30 (excelHeaders b).length = some 30
    rw [setDim, if_pos rfl]
  · intro k hk
    show (dataRows (excelHeaders b).length data 2).2.2 (k + 2) = some 150
    exact dataRows_heights _ data 2 (k + 2) (by omega) (by omega)

/-- Example data rows for the location sheet: two rows of
`[ph, dtr, qr path]`. -/
def exSheetData : List (List Value) :=
  [[Value.str "P1", Value.str "D1", Value.str "/tmp/2/emplacement_0.png"],
   [Value.str "P2", Value.str "D2", Value.str "/tmp/4/emplacement_1.png"]]

/-- Witness for C5: assembling the two example rows embeds exactly two
images. -/
theorem c5_assemble_shape_witness :
    (create_excel_with_qr_codes exSheetData true).images.length = exSheetData.length :=
  (c5_assemble_shape exSheetData true (by decide)).2.2.1

end PHqrcode
